import Mathlib

/-!
Verification of the Gen4 event-camera detection data pipeline.

The repository file `src/object_detection/dataset.py` is a thin Lightning
data module wrapping the external `metavision_ml` loader.  The wrapper itself
(`Gen4DetectionDataset.__init__`, `setup`, the three `*_dataloader` methods)
is embedded directly from the source.  The windowing/multiplexing engine
(`SequentialDataLoader`, `box_api.load_boxes`, `box_api.create_class_lookup`)
is not part of the repository's files; those components are modelled from the
specification's component design (ClassLookupBuilder, LabelWindower,
StreamCursor, StreamMultiplexer) and the corresponding definitions say so in
their doc comments.
-/

deriving instance DecidableEq for Except

namespace Gen4

/-! ## LabelWindower -/

/-- A raw bounding-box annotation: timestamp, spatial box, raw class id. -/
structure BoxLabel where
  t : Nat
  x : Int
  y : Int
  w : Nat
  h : Nat
  cls : Nat
deriving DecidableEq, Repr

/-- Squared diagonal of the box: `w² + h²`.  Comparing it with the squared
threshold expresses `sqrt (w² + h²) ≥ d` exactly, without real arithmetic. -/
def BoxLabel.diagSq (b : BoxLabel) : Nat := b.w * b.w + b.h * b.h

/-- A box that survived windowing: its time-bin index inside the chunk, its
remapped training class id, and the underlying raw box. -/
structure WindowedBox where
  bin : Nat
  trainCls : Nat
  box : BoxLabel
deriving DecidableEq, Repr

/-- Modelled from the spec: `LabelWindower.select`, standing in for
`box_api.load_boxes`, which is not part of the repository's files.  Keeps a
box when its timestamp lies in `[ws, we)`, its diagonal is at least
`minBoxDiag` (compared through squares), and its raw class id is selected by
`lkp`; survivors are remapped through `lkp` and bucketed into the time bin
`(t - ws) / binWidth` with `binWidth = (we - ws) / numTbins`. -/
def selectBoxes (labels : List BoxLabel) (ws we : Nat) (lkp : Nat → Option Nat)
    (minBoxDiag : Nat) (numTbins : Nat) : List WindowedBox :=
  labels.filterMap fun b =>
    match lkp b.cls with
    | none => none
    | some c =>
        if ws ≤ b.t ∧ b.t < we ∧ minBoxDiag * minBoxDiag ≤ b.diagSq then
          some ⟨(b.t - ws) / ((we - ws) / numTbins), c, b⟩
        else none

/-- The windower's filter as a boolean: the box is in the window, large
enough, and its raw class id is selected. -/
def boxPasses (ws we minBoxDiag : Nat) (lkp : Nat → Option Nat) (b : BoxLabel) : Bool :=
  (lkp b.cls).isSome && decide (ws ≤ b.t) && decide (b.t < we) &&
    decide (minBoxDiag * minBoxDiag ≤ b.diagSq)

/-! ## ClassLookupBuilder -/

/-- Configuration errors surfaced at construction time. -/
inductive ConfigError where
  | unknownClass (name : String)
deriving DecidableEq, Repr

/-- Look a class name up in the label schema (name ↦ raw id). -/
def schemaLookup (labelMap : List (String × Nat)) (n : String) : Option Nat :=
  (labelMap.find? (fun p => p.1 = n)).map Prod.snd

/-- Modelled from the spec: `ClassLookupBuilder.build`, standing in for
`box_api.create_class_lookup`, which is not part of the repository's files.
Resolves each selected class name through the schema, in selection order,
and fails with `ConfigError.unknownClass` when a requested name is absent.
The returned list holds the raw ids of the selected classes; the training id
of a selected class is its index in this list. -/
def create_class_lookup (labelMap : List (String × Nat)) :
    List String → Except ConfigError (List Nat)
  | [] => Except.ok []
  | n :: rest =>
    match schemaLookup labelMap n, create_class_lookup labelMap rest with
    | some r, Except.ok rs => Except.ok (r :: rs)
    | some _, Except.error e => Except.error e
    | none, _ => Except.error (ConfigError.unknownClass n)

/-- The lookup table as a function: a raw id maps to the position of its
first occurrence among the selected raw ids, and to `none` (the excluded
sentinel) when it was not selected. -/
def lookupFn : List Nat → Nat → Option Nat
  | [], _ => none
  | r :: rs, raw => if r = raw then some 0 else (lookupFn rs raw).map (· + 1)

/-! ## StreamCursor -/

/-- Modelled from the spec: one recording's cursor, holding the current time
offset, the recorded end of the file, the window parameters, and the
exhaustion flag. -/
structure StreamCursor where
  offset : Nat
  fileEnd : Nat
  num_tbins : Nat
  delta_t : Nat
  exhausted : Bool
deriving DecidableEq, Repr

/-- Modelled from the spec: `StreamCursor.advance`.  Returns the next window
`[offset, offset + num_tbins * delta_t)` and moves the offset forward;
transitions to the exhausted state and returns `none` when the requested
window would run past the file's recorded end; once exhausted it returns
`none` and leaves the cursor unchanged. -/
def StreamCursor.advance (c : StreamCursor) : Option (Nat × Nat) × StreamCursor :=
  if c.exhausted then (none, c)
  else if c.fileEnd < c.offset + c.num_tbins * c.delta_t then
    (none, { c with exhausted := true })
  else
    (some (c.offset, c.offset + c.num_tbins * c.delta_t),
     { c with offset := c.offset + c.num_tbins * c.delta_t })

/-- Call `advance` `n` times, collecting the emitted windows. -/
def StreamCursor.advanceN : Nat → StreamCursor → List (Option (Nat × Nat)) × StreamCursor
  | 0, c => ([], c)
  | n + 1, c =>
    let r := StreamCursor.advanceN n c.advance.2
    (c.advance.1 :: r.1, r.2)

/-! ## StreamMultiplexer -/

/-- Modelled from the spec: a multiplexer slot is `empty`, holds an active
cursor (`active fileId remaining`, with `remaining` the number of chunks the
cursor can still produce), or was `retired` this step after its cursor
exhausted. -/
inductive Slot where
  | empty : Slot
  | active : Nat → Nat → Slot
  | retired : Slot
deriving DecidableEq, Repr

/-- A tensor chunk as seen by the batch: zero-filled for padding slots, or
real data identified by the file it came from and the cursor's remaining
count when it was produced. -/
inductive ChunkV where
  | zero : ChunkV
  | data : Nat → Nat → ChunkV
deriving DecidableEq, Repr

/-- One slot of an emitted batch: its chunk, its label set, and the padding
flag marking synthetic (non-real) slots. -/
structure BatchSlot where
  chunk : ChunkV
  labels : List Nat
  padding : Bool
deriving DecidableEq, Repr

/-- A slot retired on the previous step is treated as empty on this step. -/
def clearRetired : Slot → Slot
  | .retired => .empty
  | .empty => .empty
  | .active f r => .active f r

/-- Modelled from the spec: advancing one slot.  An empty slot pads; an
active cursor with chunks left emits a real chunk (with the labels `lf`
provides for it) and keeps the slot active; an active cursor with nothing
left returns `none`, so the slot is retired for this step and contributes a
zero-filled chunk, an empty label set, and `padding = true`. -/
def advanceSlot (lf : Nat → Nat → List Nat) : Slot → Slot × BatchSlot
  | .empty => (.empty, ⟨.zero, [], true⟩)
  | .retired => (.retired, ⟨.zero, [], true⟩)
  | .active _ 0 => (.retired, ⟨.zero, [], true⟩)
  | .active f (r + 1) => (.active f r, ⟨.data f r, lf f r, false⟩)

/-- Modelled from the spec: step 1 of `next_batch`.  Each empty slot pops the
next unused file (a pair of file id and length in chunks) from the queue and
becomes an active cursor; when the queue runs out the slot stays empty.
Returns the filled slot array, the remaining queue, and the file ids
assigned during this pass, in pop order. -/
def fillSlots : List Slot → List (Nat × Nat) → List Slot × List (Nat × Nat) × List Nat
  | [], q => ([], q, [])
  | .empty :: rest, [] =>
      let r := fillSlots rest []
      (.empty :: r.1, r.2.1, r.2.2)
  | .empty :: rest, f :: q =>
      let r := fillSlots rest q
      (.active f.1 f.2 :: r.1, r.2.1, f.1 :: r.2.2)
  | .active f k :: rest, q =>
      let r := fillSlots rest q
      (.active f k :: r.1, r.2.1, r.2.2)
  | .retired :: rest, q =>
      let r := fillSlots rest q
      (.retired :: r.1, r.2.1, r.2.2)

/-- Multiplexer state: the slot array, the queue of unused files of the
epoch, and the file ids assigned to slots so far, in assignment order. -/
structure Mux where
  slots : List Slot
  queue : List (Nat × Nat)
  assigned : List Nat
deriving DecidableEq, Repr

/-- Whether a slot is empty. -/
def Slot.isEmptySlot : Slot → Bool
  | .empty => true
  | _ => false

/-- Modelled from the spec: `StreamMultiplexer.next_batch`, standing in for
the stepping of `SequentialDataLoader`, which is not part of the
repository's files.  Retired slots are treated as empty, empty slots are
refilled from the unused-file queue, every slot is advanced, and the epoch
ends (result `none`) when every slot is empty afterwards; otherwise the
per-slot outputs form the batch.  `nextMux` is the state after one step:
retired slots cleared, empty slots refilled from the queue, every slot
advanced, the popped file ids appended to `assigned`. -/
def nextMux (lf : Nat → Nat → List Nat) (m : Mux) : Mux :=
  ⟨((fillSlots (m.slots.map clearRetired) m.queue).1.map (advanceSlot lf)).map Prod.fst,
   (fillSlots (m.slots.map clearRetired) m.queue).2.1,
   m.assigned ++ (fillSlots (m.slots.map clearRetired) m.queue).2.2⟩

def nextBatch (lf : Nat → Nat → List Nat) (m : Mux) : Option (List BatchSlot) × Mux :=
  if (nextMux lf m).slots.all Slot.isEmptySlot then (none, nextMux lf m)
  else
    (some (((fillSlots (m.slots.map clearRetired) m.queue).1.map (advanceSlot lf)).map Prod.snd),
     nextMux lf m)

/-- The multiplexer state at the start of an epoch: `batchSize` empty slots
and the full file list as the unused queue. -/
def initMux (batchSize : Nat) (files : List (Nat × Nat)) : Mux :=
  ⟨List.replicate batchSize .empty, files, []⟩

/-- Run up to `fuel` calls of `next_batch`, collecting the emitted batches;
the final boolean records whether the end-of-epoch signal was reached. -/
def runEpoch (lf : Nat → Nat → List Nat) : Nat → Mux → List (List BatchSlot) × Mux × Bool
  | 0, m => ([], m, false)
  | fuel + 1, m =>
    match (nextBatch lf m).1 with
    | none => ([], (nextBatch lf m).2, true)
    | some b =>
      let r := runEpoch lf fuel (nextBatch lf m).2
      (b :: r.1, r.2.1, r.2.2)

/-! ## Gen4DetectionDataset (embedded from `src/object_detection/dataset.py`) -/

/-- The configuration baked into the `load_labels` partial application of
`box_api.load_boxes` in `Gen4DetectionDataset.__init__`. -/
structure LoadLabelsCfg where
  num_tbins : Int
  class_lookup : List Nat
  min_box_diag_network : Nat
deriving DecidableEq, Repr

/-- The `kw_args` dictionary built by `Gen4DetectionDataset.__init__` and
passed verbatim to `SequentialDataLoader` for every split. -/
structure KwArgs where
  delta_t : Int
  preprocess_function_name : String
  array_dim : List Int
  load_labels : LoadLabelsCfg
  batch_size : Int
  num_workers : Nat
  padding : Bool
  max_incr_per_pixel : Nat
deriving DecidableEq, Repr

/-- The constructor parameters of `Gen4DetectionDataset`, with the source's
default values.  `label_map` holds the contents of the schema file that
`label_map_path` points to (name ↦ raw id); `batch_size`, `num_tbins` and
`delta_t` are integers so that non-positive values can be supplied. -/
structure Gen4Params where
  dataset_path : String := "data/Gen 4 Histograms"
  label_map : List (String × Nat) := []
  batch_size : Int := 4
  num_tbins : Int := 12
  preprocess_function_name : String := "histo"
  delta_t : Int := 50000
  channels : Int := 2
  height : Int := 360
  width : Int := 640
  max_incr_per_pixel : Nat := 5
  class_selection : List String := ["pedestrian", "two wheeler", "car"]
  num_workers : Nat := 4
deriving DecidableEq, Repr

/-- The state of a constructed `Gen4DetectionDataset`: the stored path and
`kw_args`, and the three per-split file lists, which exist only after
`setup` has run. -/
structure Gen4State where
  dataset_path : String
  kw_args : KwArgs
  files_train : Option (List String)
  files_val : Option (List String)
  files_test : Option (List String)
deriving DecidableEq, Repr

/-- `Gen4DetectionDataset.__init__`: builds the class lookup (which fails on
an unknown class name) and stores `kw_args` with `min_box_diag_network`
fixed to the literal `60`; no other validation is performed and the
per-split file lists are not created here. -/
def gen4Init (p : Gen4Params) : Except ConfigError Gen4State :=
  match create_class_lookup p.label_map p.class_selection with
  | .error e => .error e
  | .ok lookup =>
      .ok
        { dataset_path := p.dataset_path
          kw_args :=
            { delta_t := p.delta_t
              preprocess_function_name := p.preprocess_function_name
              array_dim := [p.num_tbins, p.channels, p.height, p.width]
              load_labels :=
                { num_tbins := p.num_tbins
                  class_lookup := lookup
                  min_box_diag_network := 60 }
              batch_size := p.batch_size
              num_workers := p.num_workers
              padding := true
              max_incr_per_pixel := p.max_incr_per_pixel }
          files_train := none
          files_val := none
          files_test := none }

/-- Whether construction succeeded. -/
def gen4InitOk (p : Gen4Params) : Bool :=
  match gen4Init p with
  | .ok _ => true
  | .error _ => false

/-- `Gen4DetectionDataset.setup`: creates the three per-split file lists by
globbing the split directories.  `g` stands for the filesystem's answer to a
glob pattern at the time `setup` runs. -/
def Gen4State.setup (g : String → List String) (s : Gen4State) : Gen4State :=
  { s with
    files_train := some (g (s.dataset_path ++ "/train/*.h5"))
    files_val := some (g (s.dataset_path ++ "/val/*.h5"))
    files_test := some (g (s.dataset_path ++ "/test/*.h5")) }

/-- The arguments a `SequentialDataLoader` is constructed with: a file list
and the shared `kw_args`. -/
structure SequentialDataLoader where
  files : List String
  kw_args : KwArgs
deriving DecidableEq, Repr

/-- The runtime error raised when a missing attribute is accessed. -/
inductive PyAttrError where
  | attributeError (name : String)
deriving DecidableEq, Repr

/-- `Gen4DetectionDataset.train_dataloader`: reads `self.files_train` (an
`AttributeError` before `setup`) and builds a fresh loader from the full
train file list and the shared `kw_args`. -/
def Gen4State.train_dataloader (s : Gen4State) : Except PyAttrError SequentialDataLoader :=
  match s.files_train with
  | none => .error (.attributeError "files_train")
  | some fs => .ok ⟨fs, s.kw_args⟩

/-- `Gen4DetectionDataset.val_dataloader`, as for the train split. -/
def Gen4State.val_dataloader (s : Gen4State) : Except PyAttrError SequentialDataLoader :=
  match s.files_val with
  | none => .error (.attributeError "files_val")
  | some fs => .ok ⟨fs, s.kw_args⟩

/-- `Gen4DetectionDataset.test_dataloader`, as for the train split. -/
def Gen4State.test_dataloader (s : Gen4State) : Except PyAttrError SequentialDataLoader :=
  match s.files_test with
  | none => .error (.attributeError "files_test")
  | some fs => .ok ⟨fs, s.kw_args⟩

/-! ## Concrete instances used by witnesses and counterexamples -/

/-- A label loader that returns no labels; the scheduling claims do not
depend on label content. -/
def lf0 : Nat → Nat → List Nat := fun _ _ => []

/-- Five-chunk and one-chunk recordings: file 0 exhausts after one step
while file 2 is still waiting in the queue. -/
def cxFiles : List (Nat × Nat) := [(0, 1), (1, 5), (2, 5)]

/-- The multiplexer state after the first step over `cxFiles` with
`batch_size = 2`. -/
def cxM1 : Mux := (nextBatch lf0 (initMux 2 cxFiles)).2

/-- The first batch emitted over `cxFiles` with `batch_size = 2`. -/
def cxBatch1 : List BatchSlot :=
  [⟨ChunkV.data 0 0, [], false⟩, ⟨ChunkV.data 1 4, [], false⟩]

/-- Two consecutive epochs over the same file list: each epoch restarts from
`initMux`, i.e. from all-empty slots and the full list as the queue. -/
def twoEpochRuns (lf : Nat → Nat → List Nat) (fuel B : Nat) (files : List (Nat × Nat)) :
    (List (List BatchSlot) × Mux × Bool) × (List (List BatchSlot) × Mux × Bool) :=
  (runEpoch lf fuel (initMux B files), runEpoch lf fuel (initMux B files))

/-- An exhausted cursor. -/
def cEx : StreamCursor := ⟨600000, 500000, 12, 50000, true⟩

/-- A small label schema matching the source's default class selection. -/
def labelMapEx : List (String × Nat) := [("pedestrian", 0), ("two wheeler", 1), ("car", 2)]

/-- Constructor parameters that succeed: the default parameters over
`labelMapEx`. -/
def pOk : Gen4Params := { label_map := labelMapEx }

/-- The state `gen4Init pOk` constructs. -/
def sOk : Gen4State :=
  { dataset_path := "data/Gen 4 Histograms"
    kw_args :=
      { delta_t := 50000
        preprocess_function_name := "histo"
        array_dim := [12, 2, 360, 640]
        load_labels := { num_tbins := 12, class_lookup := [0, 1, 2], min_box_diag_network := 60 }
        batch_size := 4
        num_workers := 4
        padding := true
        max_incr_per_pixel := 5 }
    files_train := none
    files_val := none
    files_test := none }

/-- Parameters with non-positive `batch_size`, `num_tbins` and `delta_t` but
a valid class selection. -/
def pBad : Gen4Params :=
  { label_map := [("car", 2)], class_selection := ["car"],
    batch_size := 0, num_tbins := -5, delta_t := 0 }

/-- Two parameter sets that differ in every numeric argument. -/
def pA : Gen4Params :=
  { label_map := [("car", 2)], class_selection := ["car"], batch_size := 1, num_tbins := 1,
    delta_t := 1, channels := 1, height := 1, width := 1, max_incr_per_pixel := 1,
    num_workers := 1 }

/-- See `pA`. -/
def pB : Gen4Params :=
  { label_map := [("car", 2)], class_selection := ["car"], batch_size := 128, num_tbins := 99,
    delta_t := 123456, channels := 3, height := 720, width := 1280, max_incr_per_pixel := 9,
    num_workers := 0 }

/-- The size-filter threshold a constructed dataset will filter against. -/
def minDiagOf : Except ConfigError Gen4State → Option Nat
  | .ok s => some s.kw_args.load_labels.min_box_diag_network
  | .error _ => none

/-- A box with diagonal exactly 65 (`25² + 60² = 65²`): it passes a
threshold of 60 and fails a threshold of 70. -/
def box65 : BoxLabel := ⟨5, 0, 0, 25, 60, 0⟩

/-- A lookup selecting only raw class 0, remapped to training id 0. -/
def lkpOne : Nat → Option Nat := fun c => if c = 0 then some 0 else none

/-- A filesystem answering every glob with two files. -/
def g0 : String → List String := fun _ => ["a.h5", "b.h5"]

/-! ## Lemmas about the multiplexer -/

/-- The file ids popped by one fill pass followed by the leftover queue is
the original queue. -/
theorem fillSlots_assign_queue (slots : List Slot) :
    ∀ q : List (Nat × Nat),
      (fillSlots slots q).2.2 ++ ((fillSlots slots q).2.1.map Prod.fst) = q.map Prod.fst := by
  induction slots with
  | nil => intro q; simp [fillSlots]
  | cons s rest ih =>
    intro q
    cases s with
    | empty =>
      cases q with
      | nil => simpa [fillSlots] using ih []
      | cons f q' => simpa [fillSlots] using ih q'
    | active f k => simpa [fillSlots] using ih q
    | retired => simpa [fillSlots] using ih q

/-- Filling preserves the number of slots. -/
theorem fillSlots_length (slots : List Slot) :
    ∀ q : List (Nat × Nat), (fillSlots slots q).1.length = slots.length := by
  induction slots with
  | nil => intro q; simp [fillSlots]
  | cons s rest ih =>
    intro q
    cases s with
    | empty =>
      cases q with
      | nil => simpa [fillSlots] using ih []
      | cons f q' => simpa [fillSlots] using ih q'
    | active f k => simpa [fillSlots] using ih q
    | retired => simpa [fillSlots] using ih q

/-- Filling with an empty queue leaves the queue empty. -/
theorem fillSlots_nil_queue (slots : List Slot) :
    (fillSlots slots []).2.1 = [] := by
  induction slots with
  | nil => simp [fillSlots]
  | cons s rest ih =>
    cases s with
    | empty => simpa [fillSlots] using ih
    | active f k => simpa [fillSlots] using ih
    | retired => simpa [fillSlots] using ih

/-- A slot can stay empty through a fill pass only because the queue ran
out, so the remaining queue is empty. -/
theorem fillSlots_empty_mem (slots : List Slot) :
    ∀ q : List (Nat × Nat), Slot.empty ∈ (fillSlots slots q).1 → (fillSlots slots q).2.1 = [] := by
  induction slots with
  | nil => intro q h; simp [fillSlots] at h
  | cons s rest ih =>
    intro q h
    cases s with
    | empty =>
      cases q with
      | nil => simpa [fillSlots] using fillSlots_nil_queue rest
      | cons f q' =>
        simp [fillSlots] at h ⊢
        exact ih q' h
    | active f k =>
      simp [fillSlots] at h ⊢
      exact ih q h
    | retired =>
      simp [fillSlots] at h ⊢
      exact ih q h

/-- Advancing never turns an occupied slot into an empty one. -/
theorem advanceSlot_fst_empty (lf : Nat → Nat → List Nat) (s : Slot) :
    (advanceSlot lf s).1 = Slot.empty ↔ s = Slot.empty := by
  cases s with
  | empty => simp [advanceSlot]
  | retired => simp [advanceSlot]
  | active f r => cases r <;> simp [advanceSlot]

/-- The state returned by `next_batch` is `nextMux`, in both branches. -/
theorem nextBatch_snd (lf : Nat → Nat → List Nat) (m : Mux) :
    (nextBatch lf m).2 = nextMux lf m := by
  unfold nextBatch
  split <;> rfl

/-- One `next_batch` step keeps `assigned ++ queue` unchanged: every file
leaving the queue is recorded as assigned, in pop order. -/
theorem nextMux_assign_queue (lf : Nat → Nat → List Nat) (m : Mux) :
    (nextMux lf m).assigned ++ ((nextMux lf m).queue.map Prod.fst) =
      m.assigned ++ m.queue.map Prod.fst := by
  have h := fillSlots_assign_queue (m.slots.map clearRetired) m.queue
  simpa [nextMux, List.append_assoc] using congrArg (m.assigned ++ ·) h

/-- One `next_batch` step preserves the number of slots. -/
theorem nextMux_slots_length (lf : Nat → Nat → List Nat) (m : Mux) :
    (nextMux lf m).slots.length = m.slots.length := by
  simp [nextMux, fillSlots_length]

/-- When `next_batch` signals end of epoch and the slot array is non-empty,
no unused file remains in the queue. -/
theorem nextBatch_none_queue (lf : Nat → Nat → List Nat) (m : Mux)
    (hne : m.slots ≠ []) (h : (nextBatch lf m).1 = none) :
    (nextMux lf m).queue = [] := by
  unfold nextBatch at h
  split at h
  case isFalse => exact absurd h (by simp)
  case isTrue hall =>
    simp only [nextMux, List.all_eq_true, List.mem_map] at hall
    have hlen : (fillSlots (m.slots.map clearRetired) m.queue).1.length = m.slots.length := by
      simp [fillSlots_length]
    have hfe : Slot.empty ∈ (fillSlots (m.slots.map clearRetired) m.queue).1 := by
      rcases List.exists_mem_of_ne_nil (fillSlots (m.slots.map clearRetired) m.queue).1
          (by intro hnil; rw [hnil] at hlen; exact hne (List.length_eq_zero.mp hlen.symm)) with
        ⟨x, hx⟩
      have hxe : (advanceSlot lf x).1 = Slot.empty := by
        have := hall _ ⟨(advanceSlot lf x), ⟨x, hx, rfl⟩, rfl⟩
        cases hax : (advanceSlot lf x).1 <;> simp [Slot.isEmptySlot, hax] at this ⊢
      exact (advanceSlot_fst_empty lf x).mp hxe ▸ hx
    have := fillSlots_empty_mem (m.slots.map clearRetired) m.queue hfe
    simp [nextMux, this]

/-- A whole epoch run keeps `assigned ++ queue` unchanged. -/
theorem runEpoch_assign_queue (lf : Nat → Nat → List Nat) :
    ∀ (fuel : Nat) (m : Mux),
      (runEpoch lf fuel m).2.1.assigned ++ ((runEpoch lf fuel m).2.1.queue.map Prod.fst) =
        m.assigned ++ m.queue.map Prod.fst := by
  intro fuel
  induction fuel with
  | zero => intro m; simp [runEpoch]
  | succ n ih =>
    intro m
    cases h : (nextBatch lf m).1 with
    | none =>
      simp only [runEpoch, h, nextBatch_snd]
      exact nextMux_assign_queue lf m
    | some b =>
      simp only [runEpoch, h, nextBatch_snd]
      exact (ih (nextMux lf m)).trans (nextMux_assign_queue lf m)

/-- A whole epoch run preserves the number of slots. -/
theorem runEpoch_slots_length (lf : Nat → Nat → List Nat) :
    ∀ (fuel : Nat) (m : Mux), (runEpoch lf fuel m).2.1.slots.length = m.slots.length := by
  intro fuel
  induction fuel with
  | zero => intro m; simp [runEpoch]
  | succ n ih =>
    intro m
    cases h : (nextBatch lf m).1 with
    | none =>
      simp only [runEpoch, h, nextBatch_snd]
      exact nextMux_slots_length lf m
    | some b =>
      simp only [runEpoch, h, nextBatch_snd]
      exact (ih (nextMux lf m)).trans (nextMux_slots_length lf m)

/-- When the epoch run reaches the end-of-epoch signal, the unused-file
queue has been emptied. -/
theorem runEpoch_done_queue (lf : Nat → Nat → List Nat) :
    ∀ (fuel : Nat) (m : Mux), m.slots ≠ [] → (runEpoch lf fuel m).2.2 = true →
      (runEpoch lf fuel m).2.1.queue = [] := by
  intro fuel
  induction fuel with
  | zero => intro m _ hdone; simp [runEpoch] at hdone
  | succ n ih =>
    intro m hne hdone
    cases h : (nextBatch lf m).1 with
    | none =>
      simp only [runEpoch, h, nextBatch_snd]
      exact nextBatch_none_queue lf m hne h
    | some b =>
      simp only [runEpoch, h, nextBatch_snd] at hdone ⊢
      have hne' : (nextMux lf m).slots ≠ [] := by
        intro hnil
        have := nextMux_slots_length lf m
        rw [hnil] at this
        exact hne (List.length_eq_zero.mp this.symm)
      exact ih (nextMux lf m) hne' hdone

/-- The content of each emitted batch slot matches its padding flag. -/
theorem advanceSlot_snd_props (lf : Nat → Nat → List Nat) (s : Slot) :
    ((advanceSlot lf s).2.padding = true →
        (advanceSlot lf s).2.chunk = ChunkV.zero ∧ (advanceSlot lf s).2.labels = []) ∧
    ((advanceSlot lf s).2.padding = false →
        ∃ f r, (advanceSlot lf s).2.chunk = ChunkV.data f r ∧
          (advanceSlot lf s).2.labels = lf f r) := by
  cases s with
  | empty => simp [advanceSlot]
  | retired => simp [advanceSlot]
  | active f r =>
    cases r with
    | zero => simp [advanceSlot]
    | succ k =>
      refine ⟨by simp [advanceSlot], fun _ => ⟨f, k, ?_, ?_⟩⟩ <;> simp [advanceSlot]

/-- Each batch `next_batch` emits has one slot per multiplexer slot, and its
slots' contents match their padding flags. -/
theorem nextBatch_some_shape (lf : Nat → Nat → List Nat) (m : Mux) (b : List BatchSlot)
    (h : (nextBatch lf m).1 = some b) :
    b.length = m.slots.length ∧
      ∀ s ∈ b,
        (s.padding = true → s.chunk = ChunkV.zero ∧ s.labels = []) ∧
        (s.padding = false → ∃ f r, s.chunk = ChunkV.data f r ∧ s.labels = lf f r) := by
  unfold nextBatch at h
  split at h
  case isTrue => exact absurd h (by simp)
  case isFalse =>
    have hb : ((fillSlots (m.slots.map clearRetired) m.queue).1.map (advanceSlot lf)).map
        Prod.snd = b := by
      simpa using h
    constructor
    · rw [← hb]
      simp [fillSlots_length]
    · intro s hs
      rw [← hb] at hs
      simp only [List.map_map, List.mem_map, Function.comp] at hs
      rcases hs with ⟨x, _, rfl⟩
      exact advanceSlot_snd_props lf x

/-- Every batch emitted during an epoch run has one slot per multiplexer
slot, with the contents matching the padding flags. -/
theorem runEpoch_batches_shape (lf : Nat → Nat → List Nat) :
    ∀ (fuel : Nat) (m : Mux) (b : List BatchSlot), b ∈ (runEpoch lf fuel m).1 →
      b.length = m.slots.length ∧
        ∀ s ∈ b,
          (s.padding = true → s.chunk = ChunkV.zero ∧ s.labels = []) ∧
          (s.padding = false → ∃ f r, s.chunk = ChunkV.data f r ∧ s.labels = lf f r) := by
  intro fuel
  induction fuel with
  | zero => intro m b hb; simp [runEpoch] at hb
  | succ n ih =>
    intro m b hb
    cases h : (nextBatch lf m).1 with
    | none => simp [runEpoch, h] at hb
    | some b0 =>
      simp only [runEpoch, h, nextBatch_snd, List.mem_cons] at hb
      rcases hb with rfl | hb
      · exact nextBatch_some_shape lf m b h
      · have := ih (nextMux lf m) b hb
        rwa [nextMux_slots_length lf m] at this

/-! ## The claims -/

/-- C1: for every file list and every positive batch size, a full epoch of
`next_batch` calls (one that reaches the end-of-epoch signal) assigns every
file of the list to a cursor slot exactly once — the assignment record of
the finished epoch is exactly the file list, in queue order, however the
list's size compares to the batch size. -/
theorem epoch_visits_every_file_exactly_once (lf : Nat → Nat → List Nat)
    (B fuel : Nat) (files : List (Nat × Nat)) (hB : 0 < B)
    (hdone : (runEpoch lf fuel (initMux B files)).2.2 = true) :
    (runEpoch lf fuel (initMux B files)).2.1.assigned = files.map Prod.fst := by
  have hne : (initMux B files).slots ≠ [] := by
    intro hnil
    have := congrArg List.length hnil
    simp [initMux] at this
    omega
  have hq := runEpoch_done_queue lf fuel (initMux B files) hne hdone
  have hinv := runEpoch_assign_queue lf fuel (initMux B files)
  rw [hq] at hinv
  simpa [initMux] using hinv

/-- Witness for C1: three files of lengths 2, 1, 3 with batch size 2; the
epoch finishes within 12 steps and assigns exactly files 10, 11, 12. -/
theorem epoch_visits_every_file_exactly_once_witness :
    (runEpoch lf0 12 (initMux 2 [(10, 2), (11, 1), (12, 3)])).2.2 = true ∧
    (runEpoch lf0 12 (initMux 2 [(10, 2), (11, 1), (12, 3)])).2.1.assigned =
      ([(10, 2), (11, 1), (12, 3)] : List (Nat × Nat)).map Prod.fst :=
  ⟨by decide, epoch_visits_every_file_exactly_once lf0 2 12 _ (by decide) (by decide)⟩

/-- C2 (amended): every batch an epoch run emits has exactly `batch_size`
slots; a slot with `padding = true` carries a zero-filled chunk and an empty
label set, and a slot with `padding = false` carries a real data chunk with
its file's labels.  (The claim's further "padding iff exhausted and no
unused file remains" is refuted by `padding_slot_with_unused_file_cx`: a
just-exhausted slot pads for one step even when a replacement file waits in
the queue.) -/
theorem batch_shape_and_padding_content (lf : Nat → Nat → List Nat)
    (B fuel : Nat) (files : List (Nat × Nat)) (b : List BatchSlot)
    (hb : b ∈ (runEpoch lf fuel (initMux B files)).1) :
    b.length = B ∧
      ∀ s ∈ b,
        (s.padding = true → s.chunk = ChunkV.zero ∧ s.labels = []) ∧
        (s.padding = false → ∃ f r, s.chunk = ChunkV.data f r ∧ s.labels = lf f r) := by
  have := runEpoch_batches_shape lf fuel (initMux B files) b hb
  simpa [initMux] using this

/-- Witness for C2 (amended): the first batch of the epoch over `cxFiles`
has exactly 2 slots. -/
theorem batch_shape_and_padding_content_witness :
    cxBatch1 ∈ (runEpoch lf0 12 (initMux 2 cxFiles)).1 ∧ cxBatch1.length = 2 :=
  ⟨by decide, (batch_shape_and_padding_content lf0 2 12 cxFiles cxBatch1 (by decide)).1⟩

/-- C2 counterexample: after the first step over `cxFiles`, slot 0's file
(file 0) is exhausted while file 2 still waits unused in the queue; the
second batch nevertheless pads slot 0 — so a slot can be padding-only even
though an unused file remains to replace it, refuting the claim's "if and
only if". -/
theorem padding_slot_with_unused_file_cx :
    cxM1.slots = [Slot.active 0 0, Slot.active 1 4] ∧
    cxM1.queue = [(2, 5)] ∧
    (nextBatch lf0 cxM1).1 =
      some [⟨ChunkV.zero, [], true⟩, ⟨ChunkV.data 1 3, [], false⟩] := by decide

/-- C3: once a cursor is exhausted, any number of further `advance` calls
all return `none` and leave the cursor unchanged — an idempotent terminal
state (the model's `advance` is a total function, so no call can raise). -/
theorem exhausted_cursor_advance_always_none (c : StreamCursor)
    (h : c.exhausted = true) (n : Nat) :
    (StreamCursor.advanceN n c).1 = List.replicate n none ∧
      (StreamCursor.advanceN n c).2 = c := by
  induction n with
  | zero => simp [StreamCursor.advanceN]
  | succ k ih =>
    have hadv : c.advance = (none, c) := by simp [StreamCursor.advance, h]
    simp [StreamCursor.advanceN, hadv, ih.1, ih.2, List.replicate_succ]

/-- Witness for C3: five polls of a concrete exhausted cursor. -/
theorem exhausted_cursor_advance_always_none_witness :
    cEx.exhausted = true ∧
    ((StreamCursor.advanceN 5 cEx).1 = List.replicate 5 none ∧
      (StreamCursor.advanceN 5 cEx).2 = cEx) :=
  ⟨rfl, exhausted_cursor_advance_always_none cEx rfl 5⟩

/-- C8: two consecutive epochs over the same file list, each restarted from
the full list without reshuffling, produce identical runs (same batches,
same final state, hence the same slot-to-file schedule), and in every run
the slot-assignment record extends in the unused-file queue's pop order:
the files assigned so far followed by the files still queued is always the
original list. -/
theorem two_epoch_schedule_determinism (lf : Nat → Nat → List Nat)
    (fuel B : Nat) (files : List (Nat × Nat)) :
    (twoEpochRuns lf fuel B files).1 = (twoEpochRuns lf fuel B files).2 ∧
    (runEpoch lf fuel (initMux B files)).2.1.assigned ++
        ((runEpoch lf fuel (initMux B files)).2.1.queue.map Prod.fst) =
      files.map Prod.fst :=
  ⟨rfl, by simpa [initMux] using runEpoch_assign_queue lf fuel (initMux B files)⟩

/-- C4: every box the label windower returns came from the input stream,
has its timestamp in `[window_start, window_end)`, has diagonal at least
`min_box_diagonal` (stated through squares), has a remapped class id that
`class_lookup` assigns to its raw id, and sits in time bin
`(timestamp - window_start) / bin_width`; and when no input box passes the
filters the result is the empty list — a value, not an error. -/
theorem label_windower_select_sound (labels : List BoxLabel) (ws we minD tb : Nat)
    (lkp : Nat → Option Nat) :
    (∀ wb ∈ selectBoxes labels ws we lkp minD tb,
        wb.box ∈ labels ∧ ws ≤ wb.box.t ∧ wb.box.t < we ∧
        minD * minD ≤ wb.box.diagSq ∧
        lkp wb.box.cls = some wb.trainCls ∧
        wb.bin = (wb.box.t - ws) / ((we - ws) / tb)) ∧
    ((∀ b ∈ labels, boxPasses ws we minD lkp b = false) →
        selectBoxes labels ws we lkp minD tb = []) := by
  constructor
  · intro wb hwb
    simp only [selectBoxes, List.mem_filterMap] at hwb
    obtain ⟨b, hbmem, hf⟩ := hwb
    cases hcls : lkp b.cls with
    | none => simp [hcls] at hf
    | some c =>
      simp only [hcls] at hf
      split at hf
      case isTrue hcond =>
        have := Option.some.inj hf
        subst this
        exact ⟨hbmem, hcond.1, hcond.2.1, hcond.2.2, hcls, rfl⟩
      case isFalse => exact absurd hf (by simp)
  · intro hall
    simp only [selectBoxes, List.filterMap_eq_nil_iff]
    intro b hb
    have hp := hall b hb
    cases hcls : lkp b.cls with
    | none => simp
    | some c =>
      simp only [boxPasses, hcls, Option.isSome_some, Bool.true_and, Bool.and_eq_false_iff,
        decide_eq_false_iff_not] at hp
      simp only [ite_eq_right_iff]
      intro hcond
      rcases hp with (hp | hp) | hp
      · exact absurd hcond.1 hp
      · exact absurd hcond.2.1 hp
      · exact absurd hcond.2.2 hp

/-- The length of a successfully built lookup equals the selection's. -/
theorem create_class_lookup_ok_length (m : List (String × Nat)) :
    ∀ (sel : List String) (rawIds : List Nat),
      create_class_lookup m sel = Except.ok rawIds → rawIds.length = sel.length := by
  intro sel
  induction sel with
  | nil =>
    intro rawIds h
    simp only [create_class_lookup] at h
    cases h
    simp
  | cons n rest ih =>
    intro rawIds h
    simp only [create_class_lookup] at h
    cases h1 : schemaLookup m n with
    | none => rw [h1] at h; simp at h
    | some r =>
      rw [h1] at h
      cases h2 : create_class_lookup m rest with
      | error e => rw [h2] at h; simp at h
      | ok rs =>
        rw [h2] at h
        simp only [Except.ok.injEq] at h
        subst h
        simp [ih rs h2]

/-- A successfully built lookup resolves the `i`-th selected name to the
`i`-th stored raw id. -/
theorem create_class_lookup_ok_get (m : List (String × Nat)) :
    ∀ (sel : List String) (rawIds : List Nat),
      create_class_lookup m sel = Except.ok rawIds →
      ∀ i (hi : i < sel.length) (hi' : i < rawIds.length),
        schemaLookup m (sel.get ⟨i, hi⟩) = some (rawIds.get ⟨i, hi'⟩) := by
  intro sel
  induction sel with
  | nil => intro rawIds _ i hi; exact absurd hi (by simp)
  | cons n rest ih =>
    intro rawIds h i hi hi'
    simp only [create_class_lookup] at h
    cases h1 : schemaLookup m n with
    | none => rw [h1] at h; simp at h
    | some r =>
      rw [h1] at h
      cases h2 : create_class_lookup m rest with
      | error e => rw [h2] at h; simp at h
      | ok rs =>
        rw [h2] at h
        simp only [Except.ok.injEq] at h
        subst h
        cases i with
        | zero => simpa using h1
        | succ j =>
          have hj : j < rest.length := by simpa using hi
          have hj' : j < rs.length := by simpa using hi'
          simpa using ih rs h2 j hj hj'

/-- On a duplicate-free table, the raw id stored at position `i` looks up to
training id `i`. -/
theorem lookupFn_get_of_nodup :
    ∀ (l : List Nat), l.Nodup → ∀ i (hi : i < l.length),
      lookupFn l (l.get ⟨i, hi⟩) = some i := by
  intro l
  induction l with
  | nil => intro _ i hi; exact absurd hi (by simp)
  | cons r rs ih =>
    intro hnd i hi
    cases i with
    | zero => simp [lookupFn]
    | succ j =>
      have hj : j < rs.length := by simpa using hi
      have hmem : rs.get ⟨j, hj⟩ ∈ rs := List.get_mem rs j hj
      have hne : ¬r = rs.get ⟨j, hj⟩ := fun he => (List.nodup_cons.mp hnd).1 (he ▸ hmem)
      have hih := ih (List.nodup_cons.mp hnd).2 j hj
      have hgt : (r :: rs).get ⟨j + 1, hi⟩ = rs.get ⟨j, hj⟩ := rfl
      rw [hgt]
      simp only [List.get_eq_getElem] at hne hih
      simp [lookupFn, hne, hih]

/-- A raw id outside the table maps to the excluded sentinel. -/
theorem lookupFn_eq_none :
    ∀ (l : List Nat) (raw : Nat), raw ∉ l → lookupFn l raw = none := by
  intro l
  induction l with
  | nil => intro raw _; rfl
  | cons r rs ih =>
    intro raw hraw
    have hne : ¬r = raw := fun he => hraw (by simp [he])
    have hnotin : raw ∉ rs := fun hm => hraw (List.mem_cons_of_mem r hm)
    simp [lookupFn, hne, ih raw hnotin]

/-- Training ids produced by the lookup are below the table's length. -/
theorem lookupFn_lt :
    ∀ (l : List Nat) (raw j : Nat), lookupFn l raw = some j → j < l.length := by
  intro l
  induction l with
  | nil => intro raw j h; simp [lookupFn] at h
  | cons r rs ih =>
    intro raw j h
    simp only [lookupFn] at h
    by_cases he : r = raw
    · rw [if_pos he] at h
      injection h with h0
      simp only [List.length_cons]
      omega
    · rw [if_neg he] at h
      rcases Option.map_eq_some'.mp h with ⟨j', hj', rfl⟩
      have := ih raw j' hj'
      simp only [List.length_cons]
      omega

/-- C5 (amended): when every selected class name occurs in the schema and
the selected classes resolve to pairwise-distinct raw ids, the built lookup
has one entry per selected class; the `i`-th selected name's raw id maps to
training id `i` (so the ids `0 .. len-1` are produced exactly, in selection
order); every produced id is below the selection's length; non-selected raw
ids map to the excluded sentinel; and repeated builds from the same inputs
are identical (the builder is a pure function, so determinism and
idempotence are definitional).  (The distinctness hypothesis is forced by
`class_lookup_duplicate_selection_cx`: with a duplicated selection the ids
are not one-per-class.) -/
theorem class_lookup_build_props (m : List (String × Nat)) (sel : List String)
    (rawIds : List Nat) (h : create_class_lookup m sel = Except.ok rawIds)
    (hnd : rawIds.Nodup) :
    rawIds.length = sel.length ∧
    (∀ i (hi : i < sel.length) (hi' : i < rawIds.length),
        schemaLookup m (sel.get ⟨i, hi⟩) = some (rawIds.get ⟨i, hi'⟩) ∧
        lookupFn rawIds (rawIds.get ⟨i, hi'⟩) = some i) ∧
    (∀ raw j, lookupFn rawIds raw = some j → j < sel.length) ∧
    (∀ raw, raw ∉ rawIds → lookupFn rawIds raw = none) ∧
    create_class_lookup m sel = create_class_lookup m sel := by
  have hlen := create_class_lookup_ok_length m sel rawIds h
  refine ⟨hlen, ?_, ?_, ?_, rfl⟩
  · intro i hi hi'
    exact ⟨create_class_lookup_ok_get m sel rawIds h i hi hi',
      lookupFn_get_of_nodup rawIds hnd i hi'⟩
  · intro raw j hj
    exact hlen ▸ lookupFn_lt rawIds raw j hj
  · intro raw hraw
    exact lookupFn_eq_none rawIds raw hraw

/-- Witness for C5: selection `["car", "truck"]` over a two-class schema —
the second selected class's raw id 7 maps to training id 1, and the
unselected raw id 5 maps to the sentinel. -/
theorem class_lookup_build_props_witness :
    lookupFn [3, 7] 7 = some 1 ∧ lookupFn [3, 7] 5 = none := by
  have h := class_lookup_build_props [("car", 3), ("truck", 7)] ["car", "truck"] [3, 7]
      (by decide) (by decide)
  exact ⟨(h.2.1 1 (by decide) (by decide)).2, h.2.2.2.1 5 (by decide)⟩

/-- C5 counterexample: with the duplicated selection `["car", "car"]` (all
names occur in the schema, as the claim requires), the build succeeds with
table `[3, 3]`, but the second selected class's raw id 3 maps to training
id 0, not 1 — the ids `0 .. len-1` are not produced one per selected
class. -/
theorem class_lookup_duplicate_selection_cx :
    create_class_lookup [("car", 3)] ["car", "car"] = Except.ok [3, 3] ∧
    lookupFn [3, 3] 3 = some 0 ∧ (0 : Nat) ≠ 1 := by decide

/-- C6 (amended): every successfully constructed dataset filters boxes
against the built-in threshold 60 — `min_box_diag_network` is not a
constructor parameter and no caller-supplied value reaches it. -/
theorem min_box_diag_fixed_to_60 (p : Gen4Params) (s : Gen4State)
    (h : gen4Init p = Except.ok s) :
    s.kw_args.load_labels.min_box_diag_network = 60 := by
  unfold gen4Init at h
  cases hc : create_class_lookup p.label_map p.class_selection with
  | error e => rw [hc] at h; simp at h
  | ok lookup =>
    rw [hc] at h
    simp only [Except.ok.injEq] at h
    subst h
    rfl

/-- Witness for C6 (amended): the default construction stores threshold
60. -/
theorem min_box_diag_fixed_to_60_witness :
    gen4Init pOk = Except.ok sOk ∧ sOk.kw_args.load_labels.min_box_diag_network = 60 :=
  ⟨by decide, min_box_diag_fixed_to_60 pOk sOk (by decide)⟩

/-- C6 counterexample: two constructions whose numeric arguments differ in
every position both store threshold 60, and the pipeline does not filter
against a caller's desired threshold of 70: a box of diagonal 65 survives
the constructed threshold 60 but a 70-threshold filter would drop it.  The
threshold is a built-in constant, not part of the configuration surface. -/
theorem min_box_diag_not_configurable_cx :
    minDiagOf (gen4Init pA) = some 60 ∧ minDiagOf (gen4Init pB) = some 60 ∧
    (60 : Nat) ≠ 70 ∧
    selectBoxes [box65] 0 100 lkpOne 60 1 = [⟨0, 0, box65⟩] ∧
    selectBoxes [box65] 0 100 lkpOne 70 1 = [] := by decide

/-- Every class selection that resolves in the schema builds successfully. -/
theorem create_ok_of_all (m : List (String × Nat)) :
    ∀ sel : List String, (∀ n ∈ sel, (schemaLookup m n).isSome = true) →
      ∃ rs, create_class_lookup m sel = Except.ok rs := by
  intro sel
  induction sel with
  | nil => exact fun _ => ⟨[], rfl⟩
  | cons n rest ih =>
    intro hall
    have h1 : (schemaLookup m n).isSome = true := hall n (by simp)
    rcases Option.isSome_iff_exists.mp h1 with ⟨r, hr⟩
    rcases ih (fun x hx => hall x (List.mem_cons_of_mem n hx)) with ⟨rs, hrs⟩
    exact ⟨r :: rs, by simp [create_class_lookup, hr, hrs]⟩

/-- A successful build needs every selected name to resolve in the schema. -/
theorem create_all_of_ok (m : List (String × Nat)) :
    ∀ (sel : List String) (rs : List Nat), create_class_lookup m sel = Except.ok rs →
      ∀ n ∈ sel, (schemaLookup m n).isSome = true := by
  intro sel
  induction sel with
  | nil => intro rs _ n hn; exact absurd hn (by simp)
  | cons n0 rest ih =>
    intro rs h n hn
    simp only [create_class_lookup] at h
    cases h1 : schemaLookup m n0 with
    | none => rw [h1] at h; simp at h
    | some r =>
      rw [h1] at h
      cases h2 : create_class_lookup m rest with
      | error e => rw [h2] at h; simp at h
      | ok rs' =>
        rcases List.mem_cons.mp hn with rfl | hn'
        · simp [h1]
        · exact ih rs' h2 n hn'

/-- Construction succeeds exactly when the class lookup does. -/
theorem gen4Init_ok_iff (p : Gen4Params) :
    (∃ s, gen4Init p = Except.ok s) ↔
      ∃ rs, create_class_lookup p.label_map p.class_selection = Except.ok rs := by
  unfold gen4Init
  cases hc : create_class_lookup p.label_map p.class_selection with
  | error e => simp
  | ok lookup => simp

/-- C7 (amended): construction fails with `ConfigError` exactly when some
requested class name is absent from the label schema; non-positive
`batch_size`, `num_tbins` or `delta_t` are not validated at construction
and never cause a failure (see `nonpositive_config_accepted_cx`). -/
theorem init_fails_iff_unknown_class (p : Gen4Params) :
    (∃ s, gen4Init p = Except.ok s) ↔
      ∀ n ∈ p.class_selection, (schemaLookup p.label_map n).isSome = true := by
  rw [gen4Init_ok_iff]
  constructor
  · rintro ⟨rs, hrs⟩
    exact create_all_of_ok p.label_map p.class_selection rs hrs
  · intro hall
    exact create_ok_of_all p.label_map p.class_selection hall

/-- C7 counterexample: with `batch_size = 0`, `num_tbins = -5` and
`delta_t = 0` (and a valid class selection), construction succeeds instead
of failing with `ConfigError`. -/
theorem nonpositive_config_accepted_cx :
    pBad.batch_size = 0 ∧ pBad.num_tbins = -5 ∧ pBad.delta_t = 0 ∧
    gen4InitOk pBad = true := by decide

/-- C9: after `setup`, each split's dataloader call builds a fresh
`SequentialDataLoader` from that split's full file list, and all three are
constructed with the very same `kw_args` (the shared windowing
configuration: `delta_t`, `num_tbins`, tensor shape, `batch_size`, label
loading, padding). -/
theorem splits_share_configuration (s : Gen4State) (g : String → List String) :
    (Gen4State.setup g s).train_dataloader =
      Except.ok ⟨g (s.dataset_path ++ "/train/*.h5"), s.kw_args⟩ ∧
    (Gen4State.setup g s).val_dataloader =
      Except.ok ⟨g (s.dataset_path ++ "/val/*.h5"), s.kw_args⟩ ∧
    (Gen4State.setup g s).test_dataloader =
      Except.ok ⟨g (s.dataset_path ++ "/test/*.h5"), s.kw_args⟩ := by
  refine ⟨?_, ?_, ?_⟩ <;>
    simp [Gen4State.setup, Gen4State.train_dataloader, Gen4State.val_dataloader,
      Gen4State.test_dataloader]

/-- C10: a freshly constructed dataset has no per-split file lists, so each
dataloader accessor fails with an `AttributeError` until `setup` has run;
after `setup` the file lists are exactly what the filesystem returned for
the split globs at the time `setup` ran. -/
theorem dataloader_requires_setup (p : Gen4Params) (s : Gen4State)
    (h : gen4Init p = Except.ok s) :
    (s.train_dataloader = Except.error (PyAttrError.attributeError "files_train") ∧
     s.val_dataloader = Except.error (PyAttrError.attributeError "files_val") ∧
     s.test_dataloader = Except.error (PyAttrError.attributeError "files_test")) ∧
    ∀ g : String → List String,
      (Gen4State.setup g s).files_train = some (g (s.dataset_path ++ "/train/*.h5")) ∧
      (Gen4State.setup g s).files_val = some (g (s.dataset_path ++ "/val/*.h5")) ∧
      (Gen4State.setup g s).files_test = some (g (s.dataset_path ++ "/test/*.h5")) := by
  have hnone : s.files_train = none ∧ s.files_val = none ∧ s.files_test = none := by
    unfold gen4Init at h
    cases hc : create_class_lookup p.label_map p.class_selection with
    | error e => rw [hc] at h; simp at h
    | ok lookup =>
      rw [hc] at h
      simp only [Except.ok.injEq] at h
      subst h
      exact ⟨rfl, rfl, rfl⟩
  refine ⟨⟨?_, ?_, ?_⟩, fun g => ⟨?_, ?_, ?_⟩⟩ <;>
    simp [Gen4State.train_dataloader, Gen4State.val_dataloader, Gen4State.test_dataloader,
      Gen4State.setup, hnone.1, hnone.2.1, hnone.2.2]

/-- Witness for C10: the concretely constructed default dataset rejects a
`train_dataloader` request before `setup`. -/
theorem dataloader_requires_setup_witness :
    sOk.train_dataloader = Except.error (PyAttrError.attributeError "files_train") :=
  (dataloader_requires_setup pOk sOk (by decide)).1.1

end Gen4
